import Mathlib

/-!
Verification of the ollama-tools log-retrieval pipeline.

The repository has five Python variants of one pipeline
(`app.py`, `batch_process.py`, `colab_run.py`, `enhanced_colab_run.py`,
`terminal_run.py`).  This file shallowly embeds the parts of those
programs that the specification's claims are about:

* the fuzzy container matching of `enhanced_colab_run.process_prompt`
  (the external `thefuzz`/`rapidfuzz` scorer is modelled explicitly,
  see the `Fuzzy` section);
* the time-range defaulting and clamping of `fetch_logs`
  (`colab_run.py` lines 19-26, `enhanced_colab_run.py` lines 52-63);
* keyword-gated honoring of model-supplied arguments
  (`colab_run.py` lines 84-96, `enhanced_colab_run.py` lines 109-134);
* the post-interpretation request processing of `app.py` and
  `enhanced_colab_run.py`, with the external log store and the chat
  model passed in as function parameters, and the executed store/chat
  calls returned as an explicit trace;
* the timestamp normalization `int(int(ts) / 1_000_000_000)` of
  `app.py` line 102 / `terminal_run.py` line 106, including the IEEE-754
  binary64 rounding that Python's true division performs;
* the batching loop of `batch_process.py` lines 123-152.

Machine integers are `Int`/`Nat`; Python dynamic values that may be an
int or a string are the inductive `PyVal`; fallible externals return
`Except`.
-/

namespace OllamaTools

/-! ## Generic list/string helpers (Python semantics) -/

/-- Boolean test that `p` starts with `q` (on character lists). -/
def startsWithL : List Char → List Char → Bool
  | _, [] => true
  | [], _ :: _ => false
  | c :: cs, d :: ds => c == d && startsWithL cs ds

/-- Python's `needle in haystack` substring test, on character lists. -/
def hasSub : List Char → List Char → Bool
  | [], needle => needle.isEmpty
  | h :: t, needle => startsWithL (h :: t) needle || hasSub t needle

/-- Python's `sub in s` substring test on strings. -/
def strHasSub (s sub : String) : Bool := hasSub s.toList sub.toList

/-- Join a list of strings with a newline, Python's `"\n".join(...)`. -/
def joinNL (l : List String) : String := String.intercalate "\n" l

/-- The whitespace characters Python's `str.strip()` removes (the ones
that can occur in this pipeline's strings). -/
def isPyWs (c : Char) : Bool := c == ' ' || c == '\n' || c == '\t' || c == '\r'

/-- Python's `str.strip()`: trim whitespace from both ends. -/
def pyStrip (s : String) : String :=
  String.mk (((s.toList.dropWhile isPyWs).reverse.dropWhile isPyWs).reverse)

/-! ## Fuzzy string scoring

`enhanced_colab_run.py` line 118 calls `thefuzz.process.extractOne`
(default scorer `WRatio`, default processor `full_process`).  That code
lives in the external `thefuzz`/`rapidfuzz` libraries, not in this
repository, so it is modelled here from those libraries' algorithm:
scores are exact rationals 0..100 (a `Frac`); `rapidfuzz` computes IEEE
doubles, which agree with the exact values except possibly where a
score sits within one double ulp of a rounding boundary — no comparison
made below is near such a boundary.  All inputs here are ASCII, so the
ASCII `Char.toLower`/`Char.isAlphanum` match Python's Unicode versions
on these strings. -/

/-- A nonnegative rational score, kept unreduced: `num / den`. -/
structure Frac where
  num : Nat
  den : Nat
deriving DecidableEq

/-- Value comparison of scores: `a < b`. -/
def fltB (a b : Frac) : Bool := a.num * b.den < b.num * a.den

/-- Value maximum of two scores (left-biased on ties, as Python's
`max` / strict-improvement updates keep the earlier value). -/
def fmax (a b : Frac) : Frac := if fltB a b then b else a

/-- Product of two scores. -/
def fmul (a b : Frac) : Frac := ⟨a.num * b.num, a.den * b.den⟩

/-- The score 100 (perfect match). -/
def f100 : Frac := ⟨100, 1⟩

/-- The score 0. -/
def f0 : Frac := ⟨0, 1⟩

/-- Does the score equal 100 (by value)? -/
def fracIs100 (a : Frac) : Bool := a.num == 100 * a.den

/-- Python's `int(round(x))` on an exact rational: round half to even. -/
def intRound (f : Frac) : Nat :=
  let q := f.num / f.den
  let r := f.num % f.den
  if 2 * r < f.den then q
  else if f.den < 2 * r then q + 1
  else if q % 2 == 0 then q else q + 1

/-- One row update of the longest-common-subsequence table:
`lcsRowAux c b prev left` walks the remaining `b` and the previous row
(`prev` holds the diagonal entry first). -/
def lcsRowAux (c : Char) : List Char → List Nat → Nat → List Nat
  | [], _, _ => []
  | b :: bs, p0 :: p1 :: ps, left =>
      let v := if c == b then p0 + 1 else max left p1
      v :: lcsRowAux c bs (p1 :: ps) v
  | _ :: _, _, _ => []

/-- The DP row for one more character of the first string. -/
def lcsRow (c : Char) (b : List Char) (prev : List Nat) : List Nat :=
  0 :: lcsRowAux c b prev 0

/-- Length of the longest common subsequence of two character lists. -/
def lcs (a b : List Char) : Nat :=
  (a.foldl (fun r c => lcsRow c b r) (List.replicate (b.length + 1) 0)).getLastD 0

/-- `rapidfuzz` `ratio`: the normalized Indel similarity times 100,
`100 * (1 - dist / (|a| + |b|))` where `dist = |a| + |b| - 2 * lcs a b`;
100 when both strings are empty. -/
def simScore (a b : List Char) : Frac :=
  let t := a.length + b.length
  if t == 0 then f100 else ⟨200 * lcs a b, t⟩

/-- Split into words: Python's `str.split()` on the space-separated
strings produced by the processor (runs of spaces, no empty words). -/
def wordsAux : List Char → List Char → List (List Char)
  | [], cur => if cur.isEmpty then [] else [cur.reverse]
  | c :: cs, cur =>
      if c == ' ' then
        if cur.isEmpty then wordsAux cs [] else cur.reverse :: wordsAux cs []
      else wordsAux cs (c :: cur)

/-- The words of a character list. -/
def wordsL (s : List Char) : List (List Char) := wordsAux s []

/-- Lexicographic comparison of words by character code, Python's `<`
on strings. -/
def lexLt : List Char → List Char → Bool
  | [], [] => false
  | [], _ :: _ => true
  | _ :: _, [] => false
  | a :: as, b :: bs =>
      if a.val < b.val then true
      else if b.val < a.val then false
      else lexLt as bs

/-- Insert into a lexicographically sorted word list. -/
def insertW (w : List Char) : List (List Char) → List (List Char)
  | [] => [w]
  | x :: xs => if lexLt x w then x :: insertW w xs else w :: x :: xs

/-- Sort words lexicographically, Python's `sorted`. -/
def sortW : List (List Char) → List (List Char)
  | [] => []
  | x :: xs => insertW x (sortW xs)

/-- The distinct words, first occurrence order (Python's `set`; only
membership, not order, matters downstream because results are sorted). -/
def uniqW (ws : List (List Char)) : List (List Char) :=
  ws.foldl (fun acc w => if acc.contains w then acc else acc ++ [w]) []

/-- Set intersection of word lists. -/
def interW (a b : List (List Char)) : List (List Char) :=
  a.filter (fun w => b.contains w)

/-- Set difference of word lists. -/
def diffW (a b : List (List Char)) : List (List Char) :=
  a.filter (fun w => !(b.contains w))

/-- Words joined with single spaces, Python's `" ".join`. -/
def joinW (ws : List (List Char)) : List Char := List.intercalate [' '] ws

/-- `rapidfuzz` `token_sort_ratio`: `ratio` of the space-joined sorted
token lists. -/
def tokSortScore (a b : List Char) : Frac :=
  simScore (joinW (sortW (wordsL a))) (joinW (sortW (wordsL b)))

/-- `rapidfuzz` `token_set_ratio`: compares the joined intersection
against the joined intersection-plus-difference strings, taking the
best of the three pairwise normalized similarities. -/
def tokSetScore (a b : List Char) : Frac :=
  let ta := uniqW (wordsL a)
  let tb := uniqW (wordsL b)
  if ta.isEmpty || tb.isEmpty then f0
  else
    let sect := interW ta tb
    let dab := diffW ta tb
    let dba := diffW tb ta
    if !sect.isEmpty && (dab.isEmpty || dba.isEmpty) then f100
    else
      let jab := joinW (sortW dab)
      let jba := joinW (sortW dba)
      let abL := jab.length
      let baL := jba.length
      let sectL := (joinW sect).length
      let one := if sectL == 0 then 0 else 1
      let sab := sectL + one + abL
      let sba := sectL + one + baL
      let dist := abL + baL - 2 * lcs jab jba
      let c1 : Frac := ⟨100 * (sab + sba - dist), sab + sba⟩
      let c2 : Frac := ⟨100 * ((sectL + sab) - (one + abL)), sectL + sab⟩
      let c3 : Frac := ⟨100 * ((sectL + sba) - (one + baL)), sectL + sba⟩
      fmax c1 (fmax c2 c3)

/-- `rapidfuzz` partial-ratio scan with the shorter string `s1` as the
needle: best `ratio` of `s1` against the candidate windows of `s2`
(prefixes, length-`|s1|` slices, suffixes), each window considered only
when its boundary character occurs in `s1`. -/
def partShort (s1 s2 : List Char) : Frac :=
  let l1 := s1.length
  let l2 := s2.length
  let pre := (List.range' 1 (l1 - 1)).filterMap fun i =>
    if s1.contains (s2.getD (i - 1) ' ') then some (simScore s1 (s2.take i)) else none
  let mid := (List.range' 0 (l2 - l1)).filterMap fun i =>
    if s1.contains (s2.getD (i + l1 - 1) ' ') then some (simScore s1 ((s2.drop i).take l1))
    else none
  let suf := (List.range' (l2 - l1) l1).filterMap fun i =>
    if s1.contains (s2.getD i ' ') then some (simScore s1 (s2.drop i)) else none
  (pre ++ mid ++ suf).foldl fmax f0

/-- `rapidfuzz` `partial_ratio`: runs the scan with the shorter string
as needle; for equal lengths below 100 also the swapped scan. -/
def partScore (s1 s2 : List Char) : Frac :=
  if s1.isEmpty && s2.isEmpty then f100
  else
    let a := if s1.length ≤ s2.length then s1 else s2
    let b := if s1.length ≤ s2.length then s2 else s1
    let r := partShort a b
    if !fracIs100 r && s1.length == s2.length then fmax r (partShort b a) else r

/-- `rapidfuzz` `partial_token_ratio`: 100 as soon as the two token
sets share a word; otherwise the partial ratio of the sorted joined
tokens, and (when either side has duplicate words) also of the sorted
joined set differences. -/
def partTokScore (a b : List Char) : Frac :=
  let sa := wordsL a
  let sb := wordsL b
  let ua := uniqW sa
  let ub := uniqW sb
  if !(interW ua ub).isEmpty then f100
  else
    let r1 := partScore (joinW (sortW sa)) (joinW (sortW sb))
    let dab := diffW ua ub
    let dba := diffW ub ua
    if sa.length == dab.length && sb.length == dba.length then r1
    else fmax r1 (partScore (joinW (sortW dab)) (joinW (sortW dba)))

/-- `rapidfuzz` `WRatio` on processed strings: plain ratio, boosted by
token scores (scaled 0.95) for similar lengths, and by partial scores
(scaled 0.9, or 0.6 past an 8:1 length ratio) otherwise. -/
def wScore (s1 s2 : List Char) : Frac :=
  let l1 := s1.length
  let l2 := s2.length
  if l1 == 0 || l2 == 0 then f0
  else
    let mx := max l1 l2
    let mn := min l1 l2
    let base := simScore s1 s2
    if 2 * mx < 3 * mn then
      fmax base (fmul (fmax (tokSortScore s1 s2) (tokSetScore s1 s2)) ⟨95, 100⟩)
    else
      let scl : Frac := if mx < 8 * mn then ⟨9, 10⟩ else ⟨6, 10⟩
      fmax base (fmax (fmul (partScore s1 s2) scl)
        (fmul (partTokScore s1 s2) (fmul ⟨95, 100⟩ scl)))

/-- `thefuzz` `full_process`: every non-alphanumeric character becomes
a space, letters are lowercased, and the ends are trimmed. -/
def procStr (s : List Char) : List Char :=
  let mapped := s.map fun c => if c.isAlphanum then c.toLower else ' '
  ((mapped.dropWhile (· == ' ')).reverse.dropWhile (· == ' ')).reverse

/-- `thefuzz` `process.extractOne`: processes query and choices, scores
each choice with `WRatio`, keeps the first choice with the strictly
best score, and returns it with the score rounded to an int. -/
def extractOne (query : List Char) (choices : List String) : Option (String × Nat) :=
  let pq := procStr query
  let best := choices.foldl
    (fun (acc : Option (String × Frac)) c =>
      let sc := wScore pq (procStr c.toList)
      match acc with
      | none => some (c, sc)
      | some p => if fltB p.2 sc then some (c, sc) else some p)
    none
  best.map fun p => (p.1, intRound p.2)

/-! ## Constants and the data model -/

/-- The fixed container enumeration (identical in all five variants). -/
def CONTAINERS : List String :=
  ["/stage-bit-ponder", "/staging-cobi-v2", "/staging-evm-relay", "/staging-evm-watcher",
   "/staging-info-server", "/staging-quote", "/quote-staging", "/solana-relayer-staging",
   "/solana-watcher-staging", "/starkner-watcher-staging"]

/-- `DEFAULT_CONTAINER` of `enhanced_colab_run.py` line 19 (also the
literal default in `colab_run.py` lines 89 and 104). -/
def DEFAULT_CONTAINER : String := "/staging-cobi-v2"

/-- A Python value that may be an int or a string (the untyped argument
mapping the model produces holds either). -/
inductive PyVal where
  | int : Int → PyVal
  | str : String → PyVal
deriving DecidableEq

/-- Python `f"{v}"` of a `PyVal`. -/
def pvShow : PyVal → String
  | .int n => toString n
  | .str s => s

/-- Python `repr` of a `PyVal` (ints bare, strings quoted). -/
def pvRepr : PyVal → String
  | .int n => toString n
  | .str s => "'" ++ s ++ "'"

/-- Python `f"{v}"` where `v` may be `None`. -/
def pvOptShow : Option PyVal → String
  | none => "None"
  | some v => pvShow v

/-- Python `str.isdigit` (ASCII inputs). -/
def isDigitStr (s : String) : Bool := !s.isEmpty && s.toList.all Char.isDigit

/-- Decimal value of a digit string, Python's `int(s)`. -/
def strToNat (s : String) : Nat := s.toList.foldl (fun a c => a * 10 + (c.toNat - 48)) 0

/-- The numeric coercion of `enhanced_colab_run.py` lines 129-134 and
`colab_run.py` lines 99-101: a digit-only string becomes an int, every
other value is left unchanged. -/
def coerceDigits : PyVal → PyVal
  | .str s => if isDigitStr s then .int (strToNat s) else .str s
  | .int n => .int n

/-- Python truthiness of a `PyVal` (`0` and `""` are falsy). -/
def pyTruthy : PyVal → Bool
  | .int n => !(n == 0)
  | .str s => !s.isEmpty

/-- Python's `v or d` for an optional value `v` (used by
`enhanced_colab_run.py` lines 57-58: `None`, `0` and `""` all fall back). -/
def pyOrVal (v : Option PyVal) (d : PyVal) : PyVal :=
  match v with
  | none => d
  | some w => if pyTruthy w then w else d

/-- The untyped argument mapping of a tool invocation. -/
structure ToolArgs where
  container : Option String
  start_time : Option PyVal
  end_time : Option PyVal
  limit : Option PyVal
deriving DecidableEq

/-- One tool invocation requested by the model. -/
structure ToolCall where
  name : String
  args : ToolArgs
deriving DecidableEq

/-- Python `repr` of the raw argument dict (field order fixed to the
schema order; the genuine dict order depends on the model's output and
is not observable in the claims). -/
def argsRepr (a : ToolArgs) : String :=
  let fields :=
    (match a.container with
     | some c => ["'container': '" ++ c ++ "'"]
     | none => []) ++
    (match a.start_time with
     | some v => ["'start_time': " ++ pvRepr v]
     | none => []) ++
    (match a.end_time with
     | some v => ["'end_time': " ++ pvRepr v]
     | none => []) ++
    (match a.limit with
     | some v => ["'limit': " ++ pvRepr v]
     | none => [])
  "\x7b" ++ String.intercalate ", " fields ++ "\x7d"

/-- What the interpretation step produced: a direct answer (no
`tool_calls` key in the message) or the list of tool invocations. -/
inductive Interp where
  | direct : String → Interp
  | calls : List ToolCall → Interp

/-- The raw nested store result: `data.result`, a list of streams, each
an ordered list of (timestamp, message) pairs.  Timestamps arrive as
decimal strings in the JSON; the numeric value is modelled directly. -/
abbrev Streams := List (List (Nat × String))

/-! ## Keyword gating (Argument Resolver, selective honoring)

`colab_run.py` lines 84-87 and `enhanced_colab_run.py` lines 109-112:
substring tests on the lowercased prompt. -/

/-- The lowercased characters of a string, Python's `str.lower()`
(ASCII prompts). -/
def lowerStr (s : String) : List Char := s.toList.map Char.toLower

/-- Is `kw` a substring of the lowercased prompt? -/
def hasKw (prompt kw : String) : Bool := hasSub (lowerStr prompt) kw.toList

/-- The start-time keyword family "start"/"from"/"beginning". -/
def hasStartKw (p : String) : Bool := hasKw p "start" || hasKw p "from" || hasKw p "beginning"

/-- The end-time keyword family "end"/"to"/"until". -/
def hasEndKw (p : String) : Bool := hasKw p "end" || hasKw p "to" || hasKw p "until"

/-- The limit keyword "limit". -/
def hasLimitKw (p : String) : Bool := hasKw p "limit"

/-- `enhanced_colab_run.py` lines 125 and 129-130: the model's
start_time is kept only when the prompt has a start keyword, then
digit-strings are coerced. -/
def enhSelStart (prompt : String) (a : ToolArgs) : Option PyVal :=
  (if hasStartKw prompt then a.start_time else none).map coerceDigits

/-- `enhanced_colab_run.py` lines 126 and 131-132, end_time analogue. -/
def enhSelEnd (prompt : String) (a : ToolArgs) : Option PyVal :=
  (if hasEndKw prompt then a.end_time else none).map coerceDigits

/-- `enhanced_colab_run.py` lines 127 and 133-134: the model's limit is
kept only with a limit keyword, else the default 100. -/
def enhSelLimit (prompt : String) (a : ToolArgs) : Option PyVal :=
  (if hasLimitKw prompt then a.limit else some (.int 100)).map coerceDigits

/-- `enhanced_colab_run.py` line 137: displayed start (`is not None` test). -/
def enhActualStart (prompt : String) (a : ToolArgs) (now : Int) : PyVal :=
  (enhSelStart prompt a).getD (.int (now - 3600))

/-- `enhanced_colab_run.py` line 138: displayed end. -/
def enhActualEnd (prompt : String) (a : ToolArgs) (now : Int) : PyVal :=
  (enhSelEnd prompt a).getD (.int now)

/-- `colab_run.py` lines 94-95 and 112: limit kept only with the
keyword and when supplied, else 100 (unlike the enhanced variant, a
gated-but-missing limit still becomes 100 here). -/
def colabSelLimit (prompt : String) (a : ToolArgs) : PyVal :=
  (((if hasLimitKw prompt then a.limit else none).map coerceDigits).getD (.int 100))

/-! ## Time-range clamping -/

/-- The clamping of `fetch_logs`, `colab_run.py` lines 23-26 and
`enhanced_colab_run.py` lines 60-63: swap when start > end, then pull
start forward when the span exceeds 30 days. -/
def clampRange (s0 e0 : Int) : Int × Int :=
  let p := if s0 > e0 then (e0, s0) else (s0, e0)
  if p.2 - p.1 > 30 * 24 * 3600 then (p.2 - 30 * 24 * 3600, p.2) else p

/-- A resolved query as the enhanced variant's `fetch_logs` executes
it: container, clamped start/end, and the limit exactly as passed
(`None` or a non-numeric string go into the URL untouched). -/
structure Query where
  container : String
  qStart : Int
  qEnd : Int
  qLimit : Option PyVal
deriving DecidableEq

/-- `enhanced_colab_run.py` lines 56-66: apply the `or`-defaults, then
clamp.  A non-int value surviving to the comparisons raises a
`TypeError` (message summarized), and no request is made. -/
def enhancedFetchQ (now : Int) (container : String) (st et lim : Option PyVal) :
    Except String Query :=
  match pyOrVal st (.int (now - 3600)), pyOrVal et (.int now) with
  | .int s, .int e =>
      let p := clampRange s e
      .ok ⟨container, p.1, p.2, lim⟩
  | _, _ => .error "TypeError: unsupported comparison/subtraction on str time bounds"

/-! ## Container resolution -/

/-- `enhanced_colab_run.py` lines 115-117: default when absent, spaces
to dashes, leading slash prepended when missing. -/
def normalizeRaw (raw : Option String) : String :=
  let c0 := (raw.getD DEFAULT_CONTAINER).toList.map fun c => if c == ' ' then '-' else c
  String.mk (if c0.head? == some '/' then c0 else '/' :: c0)

/-- `enhanced_colab_run.py` lines 115-122: normalize, fuzzy-match
against the enumeration, accept at score >= 80, otherwise the
`ValueError` text naming the closest candidate and its score. -/
def resolveContainer (raw : Option String) : Except String String :=
  let c1 := normalizeRaw raw
  match extractOne c1.toList CONTAINERS with
  | some bp =>
      if 80 ≤ bp.2 then .ok bp.1
      else .error ("Invalid container: " ++ c1 ++ ". Closest match: " ++ bp.1 ++
        " (score: " ++ toString bp.2 ++ ")")
  | none => .error "no candidates"

/-- `colab_run.py` lines 89 and 104-108: default when absent, leading
slash prepended, then exact membership in the enumeration (the message
text's container-list repr is abbreviated here). -/
def colabResolveContainer (raw : Option String) : Except String String :=
  let c0 := raw.getD DEFAULT_CONTAINER
  let c1 := if c0.toList.head? == some '/' then c0 else "/" ++ c0
  if CONTAINERS.contains c1 then .ok c1
  else .error ("Invalid container: " ++ c1 ++ ". Must be one of the container list")

/-! ## Timestamp normalization (app.py line 102, terminal_run.py line 106)

The code runs `int(int(ts) / 1_000_000_000)`: Python converts the int
to an IEEE-754 binary64 (round to nearest, ties to even), divides by
the exactly representable 1e9 (one more correct rounding), and `int`
truncates toward zero.  `pyNsToSec` reproduces this bit-exactly with
natural-number arithmetic (validated against CPython on 38000 inputs
covering 0..2^63). -/

/-- Floor of the base-2 logarithm, by fuel (fuel 64 covers `Nat`s
below 2^64). -/
def lg2 : Nat → Nat → Nat
  | 0, _ => 0
  | f + 1, n => if 2 ≤ n then lg2 f (n / 2) + 1 else 0

/-- Round `a / b` to the nearest integer, ties to even (IEEE-754
rounding of an exact nonnegative quotient). -/
def rheNat (a b : Nat) : Nat :=
  let f := a / b
  let r := a % b
  if 2 * r < b then f
  else if b < 2 * r then f + 1
  else if f % 2 == 0 then f else f + 1

/-- The binary64 nearest to a `Nat` (exact below 2^53, else rounded
to 53 significant bits), returned as its exact integer value. -/
def natNearestDouble (n : Nat) : Nat :=
  if n < 2 ^ 53 then n
  else
    let e := lg2 64 n
    let u := 2 ^ (e - 52)
    rheNat n u * u

/-- `int(int(ts) / 1_000_000_000)` for a nonnegative timestamp: round
`ts` to a double, divide by 1e9 with one correct rounding, truncate.
For quotients below 1 the nearest double is also below 1, so the
result is 0. -/
def pyNsToSec (ts : Nat) : Nat :=
  let d1 := natNearestDouble ts
  if d1 < 1000000000 then 0
  else
    let e := lg2 64 (d1 / 1000000000)
    if e ≤ 52 then
      let m := rheNat (d1 * 2 ^ (52 - e)) 1000000000
      m * 2 ^ e / 2 ^ 52
    else
      rheNat d1 (1000000000 * 2 ^ (e - 52)) * 2 ^ (e - 52)

/-! ## Flattening (Log Normalizer) -/

/-- The flattening of `enhanced_colab_run.py` line 148 and
`batch_process.py` lines 109-114: every stream's values in order,
rendered with the raw timestamp. -/
def rawFlatten (streams : Streams) : List String :=
  (streams.map fun entry =>
    entry.map fun tm => "Timestamp: " ++ toString tm.1 ++ ", Message: " ++ tm.2).flatten

/-- The flattening of `app.py` lines 97-103 and `terminal_run.py`
lines 101-107: like `rawFlatten` but timestamps pass through
`int(int(ts) / 1e9)` first (the `if values and len(values) > 0` guard
is vacuous for iteration and dropped). -/
def appFlatten (streams : Streams) : List String :=
  (streams.map fun entry =>
    entry.map fun tm => "Timestamp: " ++ toString (pyNsToSec tm.1) ++ ", Message: " ++ tm.2).flatten

/-! ## The enhanced pipeline (enhanced_colab_run.py lines 99-174)

`process_prompt` after the initial model call.  The log store and the
analysis model are function parameters; executed store queries and
analysis prompts are returned as traces. -/

/-- External collaborators of the enhanced variant: the clock, the log
store, and the chat model. -/
structure EnhEnv where
  now : Int
  store : Query → Except String Streams
  chat : String → Except String String

/-- The observable outcome of one request: the returned triple
(arguments display, raw-log text, result) — `none` models Python's
implicit `None` when the tool-call list is empty — plus the store
queries executed and the analysis prompts sent, in order. -/
structure RunOut where
  output : Option (String × String × String)
  storeCalls : List Query
  chatCalls : List String
deriving DecidableEq

/-- `enhanced_colab_run.py` line 140: the effective-arguments display
string. -/
def enhancedArgsStr (container : String) (actualStart actualEnd : PyVal)
    (lim : Option PyVal) : String :=
  "Arguments: \x7b'container': '" ++ container ++ "', 'start_time': " ++ pvShow actualStart ++
    ", 'end_time': " ++ pvShow actualEnd ++ ", 'limit': " ++ pvOptShow lim ++ "\x7d"

/-- `enhanced_colab_run.py` lines 159-164: the first of the data-type
words found in the lowercased prompt. -/
def enhFirstDtype (p : String) : Option String :=
  ["id", "code", "error", "status", "number"].find? fun d => hasKw p d

/-- `enhanced_colab_run.py` line 159: does the prompt ask for specific
data? -/
def enhQuerySpecific (p : String) : Bool :=
  ["find", "get", "extract", "show", "list"].any fun t => hasKw p t

/-- `enhanced_colab_run.py` lines 153-163: the analysis prompt, with
the optional extraction directive. -/
def enhancedAnalysisPrompt (prompt rawLogsStr : String) : String :=
  let base := "Here are the logs:\n\n" ++ rawLogsStr ++ "\n\n" ++
    "The original query was: '" ++ prompt ++ "'. Provide a human-readable summary. " ++
    "Only reference what is in the logs. Do not hallucinate or invent responses."
  if enhQuerySpecific prompt then
    match enhFirstDtype prompt with
    | some d => base ++ "\n\nPlease extract any " ++ d ++
        "s if available. Otherwise, report that they weren't found."
    | none => base
  else base

/-- `enhanced_colab_run.py` lines 147-172: flatten, substitute the
fixed text when no records, build the analysis prompt, call the model.
Returns the output triple and the analysis prompts sent. -/
def enhancedAfterStore (chat : String → Except String String)
    (prompt argsStr : String) (streams : Streams) :
    (String × String × String) × List String :=
  let lines := rawFlatten streams
  let rawStr := if lines.isEmpty then "No logs found." else joinNL lines
  let ap := enhancedAnalysisPrompt prompt rawStr
  match chat ap with
  | .ok content => ((argsStr, rawStr, content), [ap])
  | .error e => (("", "", "Error: " ++ e), [ap])

/-- The body of the tool-call loop, `enhanced_colab_run.py` lines
103-174.  Every branch of the Python body ends in `return`, the
`except` branch included, so the body is a total function of the first
invocation. -/
def enhancedProcessOne (env : EnhEnv) (prompt : String) (t : ToolCall) : RunOut :=
  if t.name != "fetch_logs" then
    ⟨some ("", "", "Error: Unknown function: " ++ t.name), [], []⟩
  else
    match resolveContainer t.args.container with
    | .error e => ⟨some ("", "", "Error: " ++ e), [], []⟩
    | .ok container =>
      let st := enhSelStart prompt t.args
      let et := enhSelEnd prompt t.args
      let lim := enhSelLimit prompt t.args
      let argsStr := enhancedArgsStr container (enhActualStart prompt t.args env.now)
        (enhActualEnd prompt t.args env.now) lim
      match enhancedFetchQ env.now container st et lim with
      | .error e => ⟨some ("", "", "Error: " ++ e), [], []⟩
      | .ok q =>
        match env.store q with
        | .error e =>
            ⟨some ("", "", "Error: Request failed for container '" ++ container ++ "': " ++ e),
              [q], []⟩
        | .ok streams =>
            let r := enhancedAfterStore env.chat prompt argsStr streams
            ⟨some r.1, [q], r.2⟩

/-- `enhanced_colab_run.py` lines 99-174: direct answer when the
message has no tool calls; otherwise the loop, which returns on its
first iteration (an empty call list falls off the function, Python's
implicit `None`). -/
def enhancedProcess (env : EnhEnv) (prompt : String) : Interp → RunOut
  | .direct c => ⟨some ("", "", c), [], []⟩
  | .calls [] => ⟨none, [], []⟩
  | .calls (t :: _) => enhancedProcessOne env prompt t

/-! ## The app pipeline (app.py lines 73-130) -/

/-- A query as `app.py`'s `fetch_logs` executes it: no clamping, the
resolved values (possibly strings) go into the URL as they are. -/
structure AppQuery where
  container : String
  qStart : PyVal
  qEnd : PyVal
  qLimit : PyVal
deriving DecidableEq

/-- External collaborators of the app variant. -/
structure AppEnv where
  now : Int
  store : AppQuery → Except String Streams
  chat : String → Except String String

/-- The observable outcome of one app request. -/
structure AppRunOut where
  output : Option (String × String × String)
  storeCalls : List AppQuery
  chatCalls : List String
deriving DecidableEq

/-- `app.py` line 89: the effective-arguments display string. -/
def appArgsStr (container : String) (s e l : PyVal) : String :=
  "Actual Arguments Used: \x7b'container': '" ++ container ++ "', 'start_time': " ++
    pvShow s ++ ", 'end_time': " ++ pvShow e ++ ", 'limit': " ++ pvShow l ++ "\x7d"

/-- `app.py` lines 107-114: the analysis prompt. -/
def appAnalysisPrompt (prompt rawStr : String) (count : Nat) : String :=
  "Here are the raw logs fetched based on the user's request:\n\n" ++ rawStr ++ "\n\n" ++
    "Total log entries retrieved: " ++ toString count ++ "\n\n" ++
    "Now, based on the original prompt '" ++ prompt ++
    "', analyze these logs and provide a clear, " ++
    "human-readable response. Convert timestamps (in Unix seconds) to readable dates (UTC), " ++
    "extract key details, and address the user's specific intent (e.g., listing logs, " ++
    "finding errors). Summarize patterns if applicable."

/-- `app.py` lines 93-124: the empty-stream short-circuit, flattening
with nanosecond conversion, and the inner analysis call (whose failure
is reported with the raw logs kept). -/
def appAfterStore (chat : String → Except String String)
    (prompt argsStr : String) (streams : Streams) :
    (String × String × String) × List String :=
  if streams.isEmpty then
    ((argsStr, "No logs found for the specified container and time range.", ""), [])
  else
    let lines := appFlatten streams
    let rawStr := joinNL lines
    let ap := appAnalysisPrompt prompt rawStr lines.length
    match chat ap with
    | .ok c => ((argsStr, rawStr, c), [ap])
    | .error e => ((argsStr, rawStr, "Error analyzing logs with Ollama: " ++ e), [ap])

/-- The body of the tool-call loop, `app.py` lines 82-128: a missing
`container` key raises `KeyError('container')` into the outer
`except`; otherwise presence-defaulting of the other arguments (no
coercion, no validation of the container in this variant). -/
def appProcessOne (env : AppEnv) (prompt : String) (t : ToolCall) : AppRunOut :=
  if t.name != "fetch_logs" then ⟨some ("", "", "Tool not found."), [], []⟩
  else
    match t.args.container with
    | none =>
        ⟨some ("Arguments: " ++ argsRepr t.args, "", "Error fetching logs: 'container'"), [], []⟩
    | some container =>
      let s := t.args.start_time.getD (.int (env.now - 3600))
      let e := t.args.end_time.getD (.int env.now)
      let l := t.args.limit.getD (.int 100)
      let q : AppQuery := ⟨container, s, e, l⟩
      match env.store q with
      | .error er =>
          ⟨some ("Arguments: " ++ argsRepr t.args, "", "Error fetching logs: " ++ er), [q], []⟩
      | .ok streams =>
          let r := appAfterStore env.chat prompt
            (appArgsStr container s e l) streams
          ⟨some r.1, [q], r.2⟩

/-- `app.py` lines 73-130: direct answer or the loop, which returns on
its first iteration in every branch (`else: return "Tool not found."`
included). -/
def appProcess (env : AppEnv) (prompt : String) : Interp → AppRunOut
  | .direct c => ⟨some ("", "", c), [], []⟩
  | .calls [] => ⟨none, [], []⟩
  | .calls (t :: _) => appProcessOne env prompt t

/-! ## The batch pipeline (batch_process.py lines 103-152) -/

/-- Contiguous slices of size `B` (the last may be shorter):
`raw_logs[i:i + batch_size]` for `i in range(0, len(raw_logs),
batch_size)`.  Structured with fuel = list length, enough for any
positive `B`. -/
def chunkedAux {α : Type} : Nat → Nat → List α → List (List α)
  | 0, _, _ => []
  | _, _, [] => []
  | f + 1, b, l => l.take b :: chunkedAux f b (l.drop b)

/-- The batch partition of a list. -/
def chunked {α : Type} (b : Nat) (l : List α) : List (List α) :=
  chunkedAux l.length b l

/-- `batch_process.py` lines 130-136: the per-batch analysis prompt. -/
def batchPrompt (prompt : String) (batchLines : List String) : String :=
  "Here are the raw logs fetched based on the user's request:\n\n" ++ joinNL batchLines ++
    "\n\n" ++ "The user's prompt is: '" ++ prompt ++
    "'. Analyze these logs and provide a clear, human-readable response " ++
    "that directly addresses the user's intent as stated in the prompt. " ++
    "Timestamps are in their original format (likely nanoseconds). " ++
    "Extract and focus on the details relevant to what the user asked for."

/-- `batch_process.py` lines 124-152: the sequential batch loop.  On a
model failure the loop returns at once with the error text embedding
the current batch's rendered records; after the last batch the
accumulated text is stripped.  Also returns the prompts sent. -/
def batchLoop (chat : String → Except String String) (prompt : String) :
    List (List String) → String → List String → String × List String
  | [], acc, tr => (pyStrip acc, tr)
  | b :: rest, acc, tr =>
      let p := batchPrompt prompt b
      match chat p with
      | .ok r => batchLoop chat prompt rest (acc ++ r ++ "\n") (tr ++ [p])
      | .error e => ("Error analyzing logs: " ++ e ++ "\nRaw Logs:\n" ++ joinNL b, tr ++ [p])

/-- `batch_process.py` lines 104-152: the two empty checks (stream
list, then flattened records), then batching with the fixed batch size
50. -/
def batchAfterStore (chat : String → Except String String) (prompt : String)
    (streams : Streams) : String × List String :=
  if streams.isEmpty then ("No logs found for the specified container and time range.", [])
  else
    let raw := rawFlatten streams
    if raw.isEmpty then ("No logs found matching the criteria.", [])
    else batchLoop chat prompt (chunked 50 raw) "" []

/-! ## Concrete fixtures used by witnesses and counterexamples -/

/-- An environment whose store returns no streams and whose model
answers "summary". -/
def envA : EnhEnv := ⟨1000000, fun _ => .ok [], fun _ => .ok "summary"⟩

/-- A tool call naming the default container explicitly, no optional
arguments. -/
def tcCobi : ToolCall := ⟨"fetch_logs", ⟨some "/staging-cobi-v2", none, none, none⟩⟩

/-- A tool call supplying a limit of 9999 (above the schema's declared
maximum of 5000). -/
def tcLimit : ToolCall := ⟨"fetch_logs", ⟨some "/staging-cobi-v2", none, none, some (.int 9999)⟩⟩

/-- Concatenation of a list of strings, in order. -/
def concatNL (pieces : List String) : String := pieces.foldr (fun a b => a ++ b) ""

/-- Sixty record lines a0..a59 (two batches at batch size 50). -/
def recsC6 : List String := (List.range 60).map fun i => "a" ++ toString i

/-- A model that fails exactly on a prompt mentioning record a50 (the
second batch of `recsC6`). -/
def chatC6 : String → Except String String :=
  fun p => if strHasSub p "a50" then .error "boom" else .ok "OK"

/-! ## Helper lemmas -/

set_option maxRecDepth 1000000

set_option maxHeartbeats 4000000

/-- Decidable equality of `Except` results (for evaluating the
resolver on concrete inputs). -/
instance instDecEqExcept {ε α : Type} [DecidableEq ε] [DecidableEq α] :
    DecidableEq (Except ε α) := fun a b =>
  match a, b with
  | .ok x, .ok y =>
      if h : x = y then .isTrue (h ▸ rfl)
      else .isFalse (by intro hc; injection hc; contradiction)
  | .error x, .error y =>
      if h : x = y then .isTrue (h ▸ rfl)
      else .isFalse (by intro hc; injection hc; contradiction)
  | .ok _, .error _ => .isFalse (by intro hc; injection hc)
  | .error _, .ok _ => .isFalse (by intro hc; injection hc)

/-- Closed form of the clamping: the executed range is
`(max (min s0 e0) (max s0 e0 - 30 days), max s0 e0)`. -/
theorem clampRange_closed (s0 e0 : Int) :
    clampRange s0 e0 = (max (min s0 e0) (max s0 e0 - 30 * 24 * 3600), max s0 e0) := by
  simp only [clampRange]
  split_ifs <;> simp [Prod.ext_iff] <;> omega

/-- The clamped range satisfies the two invariants. -/
theorem clampRange_inv (s0 e0 : Int) :
    (clampRange s0 e0).1 ≤ (clampRange s0 e0).2 ∧
      (clampRange s0 e0).2 - (clampRange s0 e0).1 ≤ 30 * 24 * 3600 := by
  rw [clampRange_closed]
  constructor <;> simp <;> omega

/-- A successfully built query is a clamped range with the limit
passed through. -/
theorem enhancedFetchQ_ok (now : Int) (c : String) (st et lim : Option PyVal) (q : Query)
    (h : enhancedFetchQ now c st et lim = .ok q) :
    q.qStart ≤ q.qEnd ∧ q.qEnd - q.qStart ≤ 30 * 24 * 3600 ∧ q.qLimit = lim := by
  unfold enhancedFetchQ at h
  obtain ⟨qc, qs, qe, ql⟩ := q
  split at h
  · rename_i s e _ _
    simp only [Except.ok.injEq, Query.mk.injEq] at h
    obtain ⟨-, h1, h2, h3⟩ := h
    subst h1; subst h2; subst h3
    exact ⟨(clampRange_inv s e).1, (clampRange_inv s e).2, rfl⟩
  · simp at h

/-- Every store call the enhanced pipeline executes comes out of
`enhancedFetchQ`, with the limit selected by the keyword gate. -/
theorem enhanced_storeCalls_shape (env : EnhEnv) (prompt : String) (t : ToolCall)
    (rest : List ToolCall) (q : Query)
    (hq : q ∈ (enhancedProcess env prompt (.calls (t :: rest))).storeCalls) :
    enhancedFetchQ env.now (match resolveContainer t.args.container with
      | .ok c => c | .error _ => "") (enhSelStart prompt t.args) (enhSelEnd prompt t.args)
      (enhSelLimit prompt t.args) = .ok q := by
  simp only [enhancedProcess, enhancedProcessOne] at hq
  split at hq
  · simp at hq
  · split at hq
    · simp at hq
    · rename_i container hres
      rw [hres]
      split at hq
      · simp at hq
      · rename_i q' hfq
        split at hq <;> simp at hq <;> rw [hq] <;> exact hfq

/-- `chunkedAux` of the empty list is empty at any fuel. -/
theorem chunkedAux_nil {α : Type} (f b : Nat) : chunkedAux f b ([] : List α) = [] := by
  cases f <;> rfl

/-- With enough fuel, the chunks concatenate back to the list. -/
theorem chunkedAux_flatten {α : Type} (f : Nat) :
    ∀ (b : Nat) (l : List α), 0 < b → l.length ≤ f → (chunkedAux f b l).flatten = l := by
  induction f with
  | zero =>
      intro b l _ hf
      have : l = [] := List.length_eq_zero.mp (Nat.le_zero.mp hf)
      subst this; rfl
  | succ f ih =>
      intro b l hb hf
      cases l with
      | nil => rfl
      | cons x xs =>
          simp only [chunkedAux, List.flatten_cons]
          have hdrop : ((x :: xs).drop b).length ≤ f := by
            simp only [List.length_drop, List.length_cons]
            simp only [List.length_cons] at hf
            omega
          rw [ih b ((x :: xs).drop b) hb hdrop]
          exact List.take_append_drop b (x :: xs)

/-- With enough fuel, the number of chunks is `⌈length / b⌉`. -/
theorem chunkedAux_length {α : Type} (f : Nat) :
    ∀ (b : Nat) (l : List α), 0 < b → l.length ≤ f →
      (chunkedAux f b l).length = (l.length + b - 1) / b := by
  induction f with
  | zero =>
      intro b l hb hf
      have : l = [] := List.length_eq_zero.mp (Nat.le_zero.mp hf)
      subst this
      simp [chunkedAux_nil, Nat.div_eq_of_lt (by omega : b - 1 < b)]
  | succ f ih =>
      intro b l hb hf
      cases l with
      | nil => simp [chunkedAux_nil, Nat.div_eq_of_lt (by omega : b - 1 < b)]
      | cons x xs =>
          simp only [chunkedAux, List.length_cons]
          have hdrop : ((x :: xs).drop b).length ≤ f := by
            simp only [List.length_drop, List.length_cons]
            simp only [List.length_cons] at hf
            omega
          rw [ih b ((x :: xs).drop b) hb hdrop]
          simp only [List.length_drop, List.length_cons]
          have hrw : xs.length + 1 + b - 1 = (xs.length + 1 - 1) + b := by omega
          rw [hrw, Nat.add_div_right _ hb]
          rcases le_or_lt (xs.length + 1) b with hle | hlt
          · have h0 : xs.length + 1 - b = 0 := by omega
            rw [h0]
            have h2 : (0 + b - 1) / b = 0 := Nat.div_eq_of_lt (by omega)
            have h1 : (xs.length + 1 - 1) / b = 0 := Nat.div_eq_of_lt (by omega)
            omega
          · have hrw2 : xs.length + 1 - b + b - 1 = (xs.length + 1 - b - 1) + b := by omega
            rw [hrw2, Nat.add_div_right _ hb]
            have hrw3 : xs.length + 1 - b - 1 + b = xs.length + 1 - 1 := by omega
            rw [← hrw3, Nat.add_div_right _ hb]

/-- Every chunk has at most `b` elements. -/
theorem chunkedAux_le {α : Type} (f : Nat) :
    ∀ (b : Nat) (l : List α) (c : List α), c ∈ chunkedAux f b l → c.length ≤ b := by
  induction f with
  | zero => intro b l c hc; simp [chunkedAux] at hc
  | succ f ih =>
      intro b l c hc
      cases l with
      | nil => simp [chunkedAux] at hc
      | cons x xs =>
          simp only [chunkedAux, List.mem_cons] at hc
          rcases hc with rfl | hc
          · exact List.length_take_le b (x :: xs)
          · exact ih b _ c hc

/-- Every chunk except possibly the last has exactly `b` elements. -/
theorem chunkedAux_dropLast {α : Type} (f : Nat) :
    ∀ (b : Nat) (l : List α) (c : List α), c ∈ (chunkedAux f b l).dropLast →
      c.length = b := by
  induction f with
  | zero => intro b l c hc; simp [chunkedAux] at hc
  | succ f ih =>
      intro b l c hc
      cases l with
      | nil => simp [chunkedAux] at hc
      | cons x xs =>
          simp only [chunkedAux] at hc
          cases hr : chunkedAux f b ((x :: xs).drop b) with
          | nil => rw [hr] at hc; simp at hc
          | cons y ys =>
              rw [hr, List.dropLast_cons_of_ne_nil (by simp)] at hc
              rcases List.mem_cons.mp hc with rfl | hc2
              · -- the head chunk is full because the drop was nonempty
                have hne : (x :: xs).drop b ≠ [] := by
                  intro hnil
                  rw [hnil, chunkedAux_nil] at hr
                  exact List.noConfusion hr
                have hlen : b < (x :: xs).length := by
                  by_contra hge
                  push_neg at hge
                  exact hne (List.drop_eq_nil_of_le hge)
                simp only [List.length_take]
                omega
              · exact ih b _ c (by rw [hr]; exact hc2)

/-- A batch loop whose model always answers concatenates the per-batch
answers in order (separator "\n", final strip) and sends exactly the
per-batch prompts in order. -/
theorem batchLoop_all_ok (g : String → String) (prompt : String) :
    ∀ (bs : List (List String)) (acc : String) (tr : List String),
      batchLoop (fun p => .ok (g p)) prompt bs acc tr =
        (pyStrip (acc ++ concatNL (bs.map fun b => g (batchPrompt prompt b) ++ "\n")),
          tr ++ bs.map (batchPrompt prompt)) := by
  intro bs
  induction bs with
  | nil => intro acc tr; simp [batchLoop, concatNL]
  | cons b rest ih =>
      intro acc tr
      simp only [batchLoop, List.map_cons, concatNL, List.foldr_cons]
      rw [ih]
      simp only [concatNL, Prod.mk.injEq]
      constructor
      · simp [String.append_assoc]
      · simp

/-! ## The claims -/

/-- C1: for every resolved query produced by the Argument Resolver
(after clamping, for any provided or defaulted start and end), the
query executed against the log store satisfies start ≤ end and
end − start ≤ 30·24·3600; if start > end the two values are swapped,
and if the range exceeds 30 days, start is pulled forward to
end − 30 days (closed form: the pair is
(max (min s e) (max s e − 30 days), max s e)).  Stated for the
clamping shared by `colab_run.fetch_logs` and
`enhanced_colab_run.fetch_logs`, and for every query in the store
trace of the enhanced pipeline. -/
theorem c1_range_clamped :
    (∀ s0 e0 : Int,
      (clampRange s0 e0).1 ≤ (clampRange s0 e0).2 ∧
      (clampRange s0 e0).2 - (clampRange s0 e0).1 ≤ 30 * 24 * 3600 ∧
      clampRange s0 e0 = (max (min s0 e0) (max s0 e0 - 30 * 24 * 3600), max s0 e0)) ∧
    (∀ (env : EnhEnv) (prompt : String) (t : ToolCall) (rest : List ToolCall) (q : Query),
      q ∈ (enhancedProcess env prompt (.calls (t :: rest))).storeCalls →
      q.qStart ≤ q.qEnd ∧ q.qEnd - q.qStart ≤ 30 * 24 * 3600) := by
  constructor
  · intro s0 e0
    exact ⟨(clampRange_inv s0 e0).1, (clampRange_inv s0 e0).2, clampRange_closed s0 e0⟩
  · intro env prompt t rest q hq
    have h := enhanced_storeCalls_shape env prompt t rest q hq
    have h2 := enhancedFetchQ_ok env.now _ _ _ _ q h
    exact ⟨h2.1, h2.2.1⟩

/-- Witness for C1: a concrete run of the enhanced pipeline executes
exactly the default query (now − 3600, now), and the theorem yields
its invariants. -/
theorem c1_range_clamped_witness :
    ((⟨"/staging-cobi-v2", 996400, 1000000, some (.int 100)⟩ : Query) ∈
      (enhancedProcess envA "hello" (.calls [tcCobi])).storeCalls) ∧
    ((996400 : Int) ≤ 1000000 ∧ (1000000 : Int) - 996400 ≤ 30 * 24 * 3600) :=
  ⟨by decide, c1_range_clamped.2 envA "hello" tcCobi []
    ⟨"/staging-cobi-v2", 996400, 1000000, some (.int 100)⟩ (by decide)⟩

/-- C5: for every record sequence and positive batch size the Batch
Analyzer's partition is contiguous and order-preserving (its
concatenation reproduces the sequence), has ⌈N/B⌉ batches, all full
except possibly the last; 120 records at batch size 50 give sizes
50, 50, 20; and when every model call succeeds the per-batch answers
are concatenated in batch order (prompts sent in order, too). -/
theorem c5_batch_partition :
    (∀ (b : Nat) (l : List String), 0 < b →
      (chunked b l).flatten = l ∧
      (chunked b l).length = (l.length + b - 1) / b ∧
      (∀ c ∈ (chunked b l).dropLast, c.length = b) ∧
      (∀ c ∈ chunked b l, c.length ≤ b)) ∧
    ((chunked 50 (List.range 120)).map List.length = [50, 50, 20]) ∧
    (∀ (g : String → String) (prompt : String) (bs : List (List String)),
      batchLoop (fun p => .ok (g p)) prompt bs "" [] =
        (pyStrip (concatNL (bs.map fun b => g (batchPrompt prompt b) ++ "\n")),
          bs.map (batchPrompt prompt))) := by
  refine ⟨?_, by decide, ?_⟩
  · intro b l hb
    exact ⟨chunkedAux_flatten l.length b l hb le_rfl,
      chunkedAux_length l.length b l hb le_rfl,
      fun c hc => chunkedAux_dropLast l.length b l c hc,
      fun c hc => chunkedAux_le l.length b l c hc⟩
  · intro g prompt bs
    have h := batchLoop_all_ok g prompt bs "" []
    simpa using h

/-- Witness for C5: the partition facts at batch size 50 on a concrete
two-element list. -/
theorem c5_batch_partition_witness :
    (chunked 50 (["x", "y"] : List String)).flatten = ["x", "y"] ∧
    (chunked 50 (["x", "y"] : List String)).length = (2 + 50 - 1) / 50 :=
  ⟨(c5_batch_partition.1 50 ["x", "y"] (by decide)).1,
   (c5_batch_partition.1 50 ["x", "y"] (by decide)).2.1⟩

/-- Counterexample to C6 as stated: with 60 records (batches a0..a49
and a50..a59) and a model that fails on the second batch, the error
result embeds only the failing batch — the retrieved record "a0" is
absent from it — although the loop did abort after the failure (two
prompts sent). -/
theorem c6_error_drops_earlier_records :
    ("a0" ∈ recsC6) ∧
    (batchLoop chatC6 "q" (chunked 50 recsC6) "" []).1 =
      "Error analyzing logs: boom\nRaw Logs:\n" ++
        joinNL ((List.range' 50 10).map fun i => "a" ++ toString i) ∧
    strHasSub (batchLoop chatC6 "q" (chunked 50 recsC6) "" []).1 "a0" = false ∧
    (batchLoop chatC6 "q" (chunked 50 recsC6) "" []).2.length = 2 := by
  refine ⟨by decide, by decide, by decide, by decide⟩

/-- C6 amended: if the model call for a batch fails, the Batch
Analyzer aborts at once (no further prompts are sent) and returns an
error result that embeds the raw records of the failing batch only. -/
theorem c6_error_embeds_failing_batch :
    ∀ (chat : String → Except String String) (prompt : String) (b : List String)
      (rest : List (List String)) (acc : String) (tr : List String) (e : String),
      chat (batchPrompt prompt b) = .error e →
      batchLoop chat prompt (b :: rest) acc tr =
        ("Error analyzing logs: " ++ e ++ "\nRaw Logs:\n" ++ joinNL b,
          tr ++ [batchPrompt prompt b]) := by
  intro chat prompt b rest acc tr e h
  simp [batchLoop, h]

/-- Witness for C6 amended: a model failing on the only batch. -/
theorem c6_error_embeds_failing_batch_witness :
    batchLoop (fun _ => .error "x") "p" [["r"]] "" [] =
      ("Error analyzing logs: " ++ "x" ++ "\nRaw Logs:\n" ++ joinNL ["r"],
        [] ++ [batchPrompt "p" ["r"]]) :=
  c6_error_embeds_failing_batch (fun _ => .error "x") "p" ["r"] [] "" [] "x" rfl

/-- C7: a model-supplied start_time is honored only when the
lowercased prompt contains "start"/"from"/"beginning", an end_time
only with "end"/"to"/"until", a limit only with "limit"; without the
keyword the field falls back to its default (now − 3600, now, 100) —
in the enhanced variant, and for the limit also in the colab variant
(whose selection differs only for a gated-but-absent limit). -/
theorem c7_keyword_gating :
    ∀ (prompt : String) (a : ToolArgs) (now : Int),
      (hasStartKw prompt = false →
        enhSelStart prompt a = none ∧ enhActualStart prompt a now = .int (now - 3600)) ∧
      (hasEndKw prompt = false →
        enhSelEnd prompt a = none ∧ enhActualEnd prompt a now = .int now) ∧
      (hasLimitKw prompt = false →
        enhSelLimit prompt a = some (.int 100) ∧ colabSelLimit prompt a = .int 100) ∧
      (hasStartKw prompt = true → enhSelStart prompt a = a.start_time.map coerceDigits) ∧
      (hasEndKw prompt = true → enhSelEnd prompt a = a.end_time.map coerceDigits) ∧
      (hasLimitKw prompt = true → enhSelLimit prompt a = a.limit.map coerceDigits) := by
  intro prompt a now
  refine ⟨fun h => ?_, fun h => ?_, fun h => ?_, fun h => ?_, fun h => ?_, fun h => ?_⟩ <;>
    simp [enhSelStart, enhSelEnd, enhSelLimit, enhActualStart, enhActualEnd,
      colabSelLimit, coerceDigits, h]

/-- Witness for C7: a prompt with no keyword ignores all supplied
fields. -/
theorem c7_keyword_gating_witness :
    enhSelStart "show me cobi logs" ⟨some "c", some (.int 1), some (.str "2"), some (.int 9)⟩ =
      none ∧
    enhActualEnd "show me cobi logs" ⟨some "c", some (.int 1), some (.str "2"), some (.int 9)⟩
      77 = .int 77 ∧
    enhSelLimit "show me cobi logs" ⟨some "c", some (.int 1), some (.str "2"), some (.int 9)⟩ =
      some (.int 100) :=
  ⟨((c7_keyword_gating "show me cobi logs"
      ⟨some "c", some (.int 1), some (.str "2"), some (.int 9)⟩ 77).1 (by decide)).1,
   ((c7_keyword_gating "show me cobi logs"
      ⟨some "c", some (.int 1), some (.str "2"), some (.int 9)⟩ 77).2.1 (by decide)).2,
   ((c7_keyword_gating "show me cobi logs"
      ⟨some "c", some (.int 1), some (.str "2"), some (.int 9)⟩ 77).2.2.1 (by decide)).1⟩

/-- C9: when the model response contains several tool invocations,
only the first is processed: the whole outcome (output triple, store
calls, analysis calls) is independent of the remaining invocations,
in both the app and the enhanced variant. -/
theorem c9_first_call_only :
    ∀ (env : EnhEnv) (aenv : AppEnv) (prompt : String) (t : ToolCall)
      (rest rest2 : List ToolCall),
      enhancedProcess env prompt (.calls (t :: rest)) =
        enhancedProcess env prompt (.calls (t :: rest2)) ∧
      appProcess aenv prompt (.calls (t :: rest)) =
        appProcess aenv prompt (.calls (t :: rest2)) :=
  fun _ _ _ _ _ _ => ⟨rfl, rfl⟩

/-- C2: the Argument Resolver normalizes the raw container (spaces to
dashes, leading slash), scores it against the enumeration, accepts the
best match iff its score is ≥ 80, and otherwise fails with an error
naming the closest candidate and its score; "cobi v2" resolves to
"/staging-cobi-v2" (score 90), "totally-unknown" fails naming the
closest candidate (score 36 < 80). -/
theorem c2_container_fuzzy :
    (∀ (raw : Option String) (best : String) (score : Nat),
      extractOne (normalizeRaw raw).toList CONTAINERS = some (best, score) →
      (80 ≤ score → resolveContainer raw = .ok best) ∧
      (score < 80 → resolveContainer raw = .error ("Invalid container: " ++ normalizeRaw raw ++
        ". Closest match: " ++ best ++ " (score: " ++ toString score ++ ")"))) ∧
    resolveContainer (some "cobi v2") = .ok "/staging-cobi-v2" ∧
    (resolveContainer (some "totally-unknown") =
      .error ("Invalid container: /totally-unknown. Closest match: " ++
        "/starkner-watcher-staging (score: 36)") ∧ 36 < 80) := by
  refine ⟨?_, by decide, by decide, by decide⟩
  intro raw best score h
  unfold resolveContainer
  dsimp only
  rw [h]
  dsimp only
  constructor
  · intro hs
    rw [if_pos hs]
  · intro hs
    rw [if_neg (by omega)]

/-- Witness for C2: the general resolver rule applied at the concrete
score of "cobi v2". -/
theorem c2_container_fuzzy_witness :
    extractOne (normalizeRaw (some "cobi v2")).toList CONTAINERS =
      some ("/staging-cobi-v2", 90) ∧
    resolveContainer (some "cobi v2") = .ok "/staging-cobi-v2" :=
  ⟨by decide, (c2_container_fuzzy.1 (some "cobi v2") "/staging-cobi-v2" 90 (by decide)).1
    (by omega)⟩

/-- Counterexample to C3 as stated: in the enhanced variant a run with
zero flattened records (the store returns no streams) still invokes
the analysis model — one analysis prompt is sent — substituting the
fixed "No logs found." text for the raw logs. -/
theorem c3_analyzer_invoked_on_empty :
    rawFlatten ([] : Streams) = [] ∧
    (enhancedProcess envA "hello" (.calls [tcCobi])).chatCalls.length = 1 ∧
    (enhancedProcess envA "hello" (.calls [tcCobi])).output =
      some (enhancedArgsStr "/staging-cobi-v2" (.int 996400) (.int 1000000) (some (.int 100)),
        "No logs found.", "summary") := by
  refine ⟨rfl, by decide, by decide⟩

/-- C3 amended: on an empty flattened record sequence the batch
variant returns one of its fixed no-logs messages without invoking the
analyzer; the app variant does so exactly when the stream list itself
is empty — with streams present but zero flattened records it still
sends one analysis prompt (over empty log text); and the enhanced
variant substitutes the fixed "No logs found." text but still sends
one analysis prompt. -/
theorem c3_empty_short_circuit :
    (∀ (chat : String → Except String String) (prompt argsStr : String),
      appAfterStore chat prompt argsStr [] =
        ((argsStr, "No logs found for the specified container and time range.", ""), [])) ∧
    (∀ (chat : String → Except String String) (prompt argsStr : String) (streams : Streams),
      streams ≠ [] → appFlatten streams = [] →
      (appAfterStore chat prompt argsStr streams).2 = [appAnalysisPrompt prompt "" 0]) ∧
    (∀ (chat : String → Except String String) (prompt : String) (streams : Streams),
      rawFlatten streams = [] →
      batchAfterStore chat prompt streams =
        ((if streams.isEmpty then "No logs found for the specified container and time range."
          else "No logs found matching the criteria."), [])) ∧
    (∀ (chat : String → Except String String) (prompt argsStr : String) (streams : Streams),
      rawFlatten streams = [] →
      (enhancedAfterStore chat prompt argsStr streams).2 =
        [enhancedAnalysisPrompt prompt "No logs found."]) := by
  refine ⟨fun chat prompt argsStr => rfl, ?_, ?_, ?_⟩
  · intro chat prompt argsStr streams hne h
    cases streams with
    | nil => exact absurd rfl hne
    | cons s ss =>
        simp only [appAfterStore, h, List.isEmpty_cons, Bool.false_eq_true, if_false,
          List.length_nil]
        have hj : joinNL [] = "" := rfl
        rw [hj]
        cases hc : chat (appAnalysisPrompt prompt "" 0) <;> simp [hc]
  · intro chat prompt streams h
    cases streams with
    | nil => rfl
    | cons s ss =>
        simp only [batchAfterStore, h, List.isEmpty_cons, List.isEmpty_nil]
        rfl
  · intro chat prompt argsStr streams h
    simp only [enhancedAfterStore, h, List.isEmpty_nil]
    cases hc : chat (enhancedAnalysisPrompt prompt "No logs found.") <;> simp [hc]

/-- Witness for C3 amended: one stream with no values — flattened
empty — hits the batch variant's second fixed message with no model
call, while the app and enhanced variants each send exactly one
prompt. -/
theorem c3_empty_short_circuit_witness :
    (appAfterStore (fun _ => .ok "w") "p" "a" [[]]).2 = [appAnalysisPrompt "p" "" 0] ∧
    batchAfterStore (fun _ => .ok "w") "p" [[]] =
      ((if ([[]] : Streams).isEmpty then
          "No logs found for the specified container and time range."
        else "No logs found matching the criteria."), []) ∧
    (enhancedAfterStore (fun _ => .ok "w") "p" "a" [[]]).2 =
      [enhancedAnalysisPrompt "p" "No logs found."] :=
  ⟨c3_empty_short_circuit.2.1 (fun _ => .ok "w") "p" "a" [[]] (by decide) rfl,
   c3_empty_short_circuit.2.2.1 (fun _ => .ok "w") "p" [[]] rfl,
   c3_empty_short_circuit.2.2.2 (fun _ => .ok "w") "p" "a" [[]] rfl⟩

/-- C4 (the code's slip): the Log Normalizer computes
`int(int(ts) / 1e9)` — a float division, not integer division.  On the
scenario's timestamps it yields 1744002500 then 1744002600 in order,
but on 1744002500999999999 it yields 1744002501 where integer division
by 10^9 gives 1744002500. -/
theorem c4_ns_conversion :
    pyNsToSec 1744002500000000000 = 1744002500 ∧
    pyNsToSec 1744002600000000000 = 1744002600 ∧
    appFlatten [[(1744002500000000000, "m1"), (1744002600000000000, "m2")]] =
      ["Timestamp: 1744002500, Message: m1", "Timestamp: 1744002600, Message: m2"] ∧
    pyNsToSec 1744002500999999999 = 1744002501 ∧
    1744002500999999999 / 1000000000 = 1744002500 := by
  refine ⟨by decide, by decide, by decide, by decide, by decide⟩

/-- Counterexample to C8 as stated: with a prompt containing "limit"
and a model-supplied limit of 9999, the query executed against the
store carries limit 9999, above the schema's declared maximum 5000 (no
clamping happens in the code). -/
theorem c8_limit_unbounded :
    (enhancedProcess envA "set limit 9999" (.calls [tcLimit])).storeCalls =
      [⟨"/staging-cobi-v2", 996400, 1000000, some (.int 9999)⟩] ∧ 5000 < 9999 := by
  refine ⟨by decide, by decide⟩

/-- C8 amended: the limit of every executed query is exactly the
keyword-gated selection — the model's value (digit strings coerced,
`None` when gated but absent) when the prompt contains "limit", the
default 100 otherwise; no 1..5000 bound is enforced. -/
theorem c8_limit_passthrough :
    ∀ (env : EnhEnv) (prompt : String) (t : ToolCall) (rest : List ToolCall) (q : Query),
      q ∈ (enhancedProcess env prompt (.calls (t :: rest))).storeCalls →
      q.qLimit = enhSelLimit prompt t.args := by
  intro env prompt t rest q hq
  have h := enhanced_storeCalls_shape env prompt t rest q hq
  exact (enhancedFetchQ_ok env.now _ _ _ _ q h).2.2

/-- Witness for C8 amended: the 9999 query's limit is the gated
selection. -/
theorem c8_limit_passthrough_witness :
    (⟨"/staging-cobi-v2", 996400, 1000000, some (.int 9999)⟩ : Query).qLimit =
      enhSelLimit "set limit 9999" tcLimit.args :=
  c8_limit_passthrough envA "set limit 9999" tcLimit []
    ⟨"/staging-cobi-v2", 996400, 1000000, some (.int 9999)⟩ (by decide)

/-- C10: an invocation omitting the container resolves to the default
"/staging-cobi-v2" in both the enhanced variant (via fuzzy match at
score 100) and the colab variant (via exact membership), and the
enhanced pipeline proceeds to query that container. -/
theorem c10_default_container :
    resolveContainer none = .ok "/staging-cobi-v2" ∧
    colabResolveContainer none = .ok "/staging-cobi-v2" ∧
    (enhancedProcess envA "hello" (.calls [⟨"fetch_logs", ⟨none, none, none, none⟩⟩])).storeCalls
      = [⟨"/staging-cobi-v2", 996400, 1000000, some (.int 100)⟩] := by
  refine ⟨by decide, by decide, by decide⟩

end OllamaTools
